import Mathlib

/-!
Shallow embedding of `src/index.ts` of the mise-action repository.

The action is a linear pipeline: write optional config files, restore a
cache of the mise data directory, download the mise binary, set a few
environment variables if unset, run `mise --version` / `mise install`,
and finally export the environment reported by `mise env --json` into
the CI process.

The embedding models the process-local state (environment variables and
PATH entries) explicitly, and models the externally visible effects of
the cache / output / state / file-write calls as a trace of actions.
External services (the cache backend, the file hasher, the subprocess
runner, the JSON parser) are passed in as parameters, since their
results are inputs to the logic under verification.
-/

/-- Process-local state: the environment-variable map (association list,
most recent binding first, as produced by repeated `exportVariable`
calls) and the list of PATH entries. -/
structure ProcState where
  env : List (String × String)
  path : List String
deriving Repr, DecidableEq

/-- Reading `process.env[k]`: the most recent binding for `k`, if any. -/
def lookupEnv (s : ProcState) (k : String) : Option String :=
  (s.env.find? (fun kv => kv.fst = k)).map (fun kv => kv.snd)

/-- The `setEnv` helper of `index.ts`: `core.exportVariable(k, v)`, which
overrides any existing value of `k` in the process environment. -/
def setEnv (k v : String) (s : ProcState) : ProcState :=
  { s with env := (k, v) :: s.env }

/-- Modelled from the spec: `core.addPath` belongs to the external actions
toolkit, not to this repository; per the spec it adds the given segment to
the process PATH as one individual entry, preserving all entries
contributed by earlier steps (it never overwrites PATH wholesale). -/
def addPath (e : String) (s : ProcState) : ProcState :=
  { s with path := s.path ++ [e] }

/-- JavaScript truthiness of `process.env[k]`: `undefined` and the empty
string are both falsy. -/
def envTruthy : Option String → Bool
  | none => false
  | some v => v ≠ ""

/-- The `setEnvIfUnset` helper of `index.ts`: sets `k` to `v` only when
`process.env[k]` is falsy (absent or the empty string). -/
def setEnvIfUnset (k v : String) (s : ProcState) : ProcState :=
  if envTruthy (lookupEnv s k) then s else setEnv k v s

/-- The `getExperimental` helper: the `experimental` input is compared to
the literal string "true". -/
def getExperimental (experimentalInput : String) : Bool :=
  experimentalInput = "true"

/-- The `setEnvVarsPreInstall` stage of `index.ts`: three guarded sets, in
source order. `cwd` stands for `process.cwd()`. -/
def setEnvVarsPreInstall (cwd : String) (experimental : Bool) (s : ProcState) : ProcState :=
  setEnvIfUnset "MISE_EXPERIMENTAL" (if experimental then "1" else "0")
    (setEnvIfUnset "MISE_YES" "1"
      (setEnvIfUnset "MISE_TRUSTED_CONFIG_PATHS" cwd s))

/-- The three keys touched by the pre-install stage. -/
def preInstallKeys : List String :=
  ["MISE_TRUSTED_CONFIG_PATHS", "MISE_YES", "MISE_EXPERIMENTAL"]

/-- The value the pre-install stage assigns to each of its keys. -/
def preInstallDefault (cwd : String) (experimental : Bool) : String → String
  | "MISE_TRUSTED_CONFIG_PATHS" => cwd
  | "MISE_YES" => "1"
  | "MISE_EXPERIMENTAL" => if experimental then "1" else "0"
  | _ => ""

/-- One iteration of the `setEnvVars` loop body: a non-PATH key is
exported directly; the PATH value is split on the platform path-list
delimiter and each segment is added to PATH individually. -/
def applyEnvEntry (delim : String) (s : ProcState) (kv : String × String) : ProcState :=
  if kv.fst = "PATH" then
    (kv.snd.splitOn delim).foldl (fun t e => addPath e t) s
  else
    setEnv kv.fst kv.snd s

/-- The `setEnvVars` loop over all entries of the parsed JSON object, in
object (insertion) order. -/
def applyEnvVars (delim : String) (entries : List (String × String)) (s : ProcState) : ProcState :=
  entries.foldl (applyEnvEntry delim) s

/-- Captured result of a subprocess invocation (`exec.getExecOutput`). -/
structure ExecOutput where
  exitCode : Int
  stdout : String
  stderr : String
deriving Repr, DecidableEq

/-- The `setEnvVars` stage of `index.ts`, given the captured output of
`mise env --json`. `parseJson` stands for `JSON.parse` restricted to
objects of strings; `none` models a parse exception. On a zero exit code
the parsed entries are applied to the process state; on a non-zero exit
code the stage throws `Failed to run mise env: <stderr>` before touching
any state. -/
def setEnvVars (delim : String) (parseJson : String → Option (List (String × String)))
    (envOutput : ExecOutput) (s : ProcState) : Except String ProcState :=
  if envOutput.exitCode = 0 then
    match parseJson envOutput.stdout with
    | some envVars => Except.ok (applyEnvVars delim envVars s)
    | none => Except.error "JSON.parse failed"
  else
    Except.error ("Failed to run mise env: " ++ envOutput.stderr)

/-- Externally visible effects of the cache / config stages. -/
inductive Effect where
  | setOutput (name : String) (value : Bool)
  | saveState (name : String) (value : String)
  | restoreCache (paths : List String) (key : String)
  | info (msg : String)
  | writeFileA (path : String) (body : String)
deriving Repr, DecidableEq

/-- JavaScript stringification of a boolean, as done by `core.saveState`. -/
def boolString (b : Bool) : String := if b then "true" else "false"

/-- The `getOS` helper of `index.ts`: the switch maps `darwin` to `macos`
and passes every other platform identifier through unchanged. -/
def getOS (platform : String) : String :=
  if platform = "darwin" then "macos" else platform

/-- The defaulting of the cache key input in `restoreMiseCache`:
`core.getInput('cache_key_prefix') || 'mise-v0'`; the only falsy string
is the empty string. -/
def prefixValue (cacheKeyInput : String) : String :=
  if cacheKeyInput = "" then "mise-v0" else cacheKeyInput

/-- The fixed glob patterns hashed by `restoreMiseCache`. -/
def miseConfigGlobs : List String :=
  ["**/.config/mise/config.toml",
   "**/.mise.*.toml",
   "**/.mise.toml",
   "**/.mise/config.toml",
   "**/.tool-versions"]

/-- The primary cache key template of `restoreMiseCache`. -/
def mkPrimaryKey (cacheKeyInput platform arch fileHash : String) : String :=
  prefixValue cacheKeyInput ++ "-" ++ getOS platform ++ "-" ++ arch ++ "-" ++ fileHash

/-- The `restoreMiseCache` stage of `index.ts`, as the trace of its
effects plus its outcome. `cachePath` stands for `miseDir()`, `hashFiles`
for `glob.hashFiles` (an external, deterministic digest over the files
matching the given globs), `cacheSave` for the `cache_save` boolean
input, and `restoreResult` for the outcome of the external
`cache.restoreCache` call: an error (which propagates), a miss (`none`),
or a hit with the restored key. The three state saves happen before the
restore call, exactly as in the source. -/
def restoreMiseCache (cachePath : String) (hashFiles : List String → String)
    (cacheKeyInput platform arch : String) (cacheSave : Bool)
    (restoreResult : Except String (Option String)) :
    List Effect × Except String Unit :=
  let fileHash := hashFiles miseConfigGlobs
  let primaryKey := mkPrimaryKey cacheKeyInput platform arch fileHash
  let preSaves := [Effect.saveState "CACHE" (boolString cacheSave),
                   Effect.saveState "PRIMARY_KEY" primaryKey,
                   Effect.saveState "MISE_DIR" cachePath]
  match restoreResult with
  | Except.error e =>
      (preSaves ++ [Effect.restoreCache [cachePath] primaryKey], Except.error e)
  | Except.ok cacheKey =>
      let afterRestore := [Effect.restoreCache [cachePath] primaryKey,
                           Effect.setOutput "cache-hit" cacheKey.isSome]
      match cacheKey with
      | none =>
          (preSaves ++ afterRestore ++
             [Effect.info ("mise cache not found for " ++ primaryKey)],
           Except.ok ())
      | some key =>
          (preSaves ++ afterRestore ++
             [Effect.saveState "CACHE_KEY" key,
              Effect.info ("mise cache restored from key: " ++ key)],
           Except.ok ())

/-- The cache branch of `run`: restore when the `cache` input is true,
otherwise just report `cache-hit` as false. -/
def cacheStep (cacheInput : Bool) (cachePath : String) (hashFiles : List String → String)
    (cacheKeyInput platform arch : String) (cacheSave : Bool)
    (restoreResult : Except String (Option String)) :
    List Effect × Except String Unit :=
  if cacheInput then
    restoreMiseCache cachePath hashFiles cacheKeyInput platform arch cacheSave restoreResult
  else
    ([Effect.setOutput "cache-hit" false], Except.ok ())

/-- The `writeFile` helper of `index.ts`: logs the body and writes the
file, UTF-8 encoded, body verbatim (the filesystem semantics of the
write, including overwriting, are given by `applyFsAction`). -/
def writeFile (p : String) (body : String) : List Effect :=
  [Effect.info ("Body:\n" ++ body), Effect.writeFileA p body]

/-- The `setToolVersions` stage: skipped entirely when the `tool_versions`
input is the empty string. -/
def setToolVersions (toolVersions : String) : List Effect :=
  if toolVersions = "" then [] else writeFile ".tool-versions" toolVersions

/-- The `setMiseToml` stage: skipped entirely when the `mise_toml` input
is the empty string. -/
def setMiseToml (miseToml : String) : List Effect :=
  if miseToml = "" then [] else writeFile ".mise.toml" miseToml

/-- Filesystem semantics of one action: `fs.promises.writeFile` replaces
the file at the path with exactly the given body (most recent write
first; lookup takes the most recent). -/
def applyFsAction (fs : List (String × String)) : Effect → List (String × String)
  | Effect.writeFileA p body => (p, body) :: fs
  | _ => fs

/-- Filesystem semantics of a trace of actions. -/
def applyFsActions (fs : List (String × String)) (as : List Effect) : List (String × String) :=
  as.foldl applyFsAction fs

/-- Contents of the file at `p`, after all writes. -/
def lookupFile (fs : List (String × String)) (p : String) : Option String :=
  (fs.find? (fun e => e.fst = p)).map (fun e => e.snd)

/-- A JavaScript thrown value: either an `Error` (carrying a message) or
any other value. -/
inductive JsValue where
  | jsError (message : String)
  | nonError (payload : String)
deriving Repr, DecidableEq

/-- Observable outcome of the top-level `run`. -/
inductive RunOutcome where
  | success
  | failed (message : String)
  | crashed (thrown : JsValue)
deriving Repr, DecidableEq

/-- The top-level try/catch of `run` in `index.ts`: a caught `Error` sets
the failure message (`core.setFailed`) and the run halts; a caught
non-`Error` value is re-thrown and propagates to the platform's default
crash handling. -/
def run (pipelineResult : Except JsValue Unit) : RunOutcome :=
  match pipelineResult with
  | Except.ok _ => RunOutcome.success
  | Except.error (JsValue.jsError msg) => RunOutcome.failed msg
  | Except.error v => RunOutcome.crashed v

/-! ## Theorems -/

/-- C8: every caught `Error` sets its message as the run's failure message
and halts the run; a thrown value that is not an `Error` is not caught and
propagates to the platform's default crash handling. -/
theorem run_top_level_handler (msg payload : String) :
    run (Except.ok ()) = RunOutcome.success ∧
    run (Except.error (JsValue.jsError msg)) = RunOutcome.failed msg ∧
    run (Except.error (JsValue.nonError payload)) =
      RunOutcome.crashed (JsValue.nonError payload) :=
  ⟨rfl, rfl, rfl⟩

/-- C3: when the environment-dump subprocess exits non-zero, `setEnvVars`
fails with an error whose message includes the captured standard error,
and no environment mutation occurs (the stage never returns a state). -/
theorem setEnvVars_nonzero_exit (delim : String)
    (parseJson : String → Option (List (String × String)))
    (out : ExecOutput) (s : ProcState) (h : out.exitCode ≠ 0) :
    setEnvVars delim parseJson out s =
      Except.error ("Failed to run mise env: " ++ out.stderr) ∧
    ∀ s2 : ProcState, setEnvVars delim parseJson out s ≠ Except.ok s2 := by
  have h1 : setEnvVars delim parseJson out s =
      Except.error ("Failed to run mise env: " ++ out.stderr) := by
    unfold setEnvVars
    rw [if_neg h]
  refine ⟨h1, fun s2 hc => ?_⟩
  rw [h1] at hc
  exact Except.noConfusion hc

/-- Witness for C3 at a concrete failing invocation. -/
theorem setEnvVars_nonzero_exit_witness :
    (ExecOutput.mk 1 "" "boom").exitCode ≠ 0 ∧
    (setEnvVars ":" (fun _ => none) (ExecOutput.mk 1 "" "boom") (ProcState.mk [] []) =
        Except.error ("Failed to run mise env: " ++ "boom") ∧
      ∀ s2 : ProcState,
        setEnvVars ":" (fun _ => none) (ExecOutput.mk 1 "" "boom") (ProcState.mk [] []) ≠
          Except.ok s2) :=
  ⟨by decide,
   setEnvVars_nonzero_exit ":" (fun _ => none) (ExecOutput.mk 1 "" "boom")
     (ProcState.mk [] []) (by decide)⟩

/-- C2: the derived cache key is exactly the concatenation
`prefix-os-arch-hash`, where the prefix defaults to `mise-v0` when the
input is empty, the OS token substitutes `macos` for `darwin` and passes
every other platform identifier through unchanged, the architecture is
used as-is, and the hash is taken over the fixed glob list of
configuration files; both the persisted PRIMARY_KEY and the key used for
the restore attempt equal that concatenation. -/
theorem cacheKey_format (cachePath : String) (hashFiles : List String → String)
    (cacheKeyInput platform arch : String) (cacheSave : Bool)
    (restoreResult : Except String (Option String)) :
    Effect.saveState "PRIMARY_KEY"
        ((if cacheKeyInput = "" then "mise-v0" else cacheKeyInput) ++ "-" ++
          (if platform = "darwin" then "macos" else platform) ++ "-" ++ arch ++ "-" ++
          hashFiles miseConfigGlobs)
      ∈ (restoreMiseCache cachePath hashFiles cacheKeyInput platform arch cacheSave
          restoreResult).fst ∧
    Effect.restoreCache [cachePath]
        ((if cacheKeyInput = "" then "mise-v0" else cacheKeyInput) ++ "-" ++
          (if platform = "darwin" then "macos" else platform) ++ "-" ++ arch ++ "-" ++
          hashFiles miseConfigGlobs)
      ∈ (restoreMiseCache cachePath hashFiles cacheKeyInput platform arch cacheSave
          restoreResult).fst := by
  rcases restoreResult with e | k
  · constructor <;>
      simp [restoreMiseCache, mkPrimaryKey, prefixValue, getOS]
  · rcases k with _ | key <;> constructor <;>
      simp [restoreMiseCache, mkPrimaryKey, prefixValue, getOS]

/-- C4: when the `cache` input is false, the cache step emits exactly the
`cache-hit = false` output, succeeds, and never attempts a restore. -/
theorem cache_disabled_no_restore (cachePath : String) (hashFiles : List String → String)
    (cacheKeyInput platform arch : String) (cacheSave : Bool)
    (restoreResult : Except String (Option String)) :
    cacheStep false cachePath hashFiles cacheKeyInput platform arch cacheSave restoreResult =
      ([Effect.setOutput "cache-hit" false], Except.ok ()) ∧
    ∀ ps key, Effect.restoreCache ps key ∉
      (cacheStep false cachePath hashFiles cacheKeyInput platform arch cacheSave
        restoreResult).fst := by
  refine ⟨rfl, fun ps key hmem => ?_⟩
  simp [cacheStep] at hmem

/-- C7: each config-file write is skipped entirely when its input is the
empty string; when the input is non-empty the file is written with
exactly the given body, overwriting any existing file at that path. -/
theorem config_writer_verbatim (tv toml : String) (fs : List (String × String))
    (htv : tv ≠ "") (ht : toml ≠ "") :
    setToolVersions "" = [] ∧
    setMiseToml "" = [] ∧
    setToolVersions tv =
      [Effect.info ("Body:\n" ++ tv), Effect.writeFileA ".tool-versions" tv] ∧
    setMiseToml toml =
      [Effect.info ("Body:\n" ++ toml), Effect.writeFileA ".mise.toml" toml] ∧
    lookupFile (applyFsActions fs (setToolVersions tv)) ".tool-versions" = some tv ∧
    lookupFile (applyFsActions fs (setMiseToml toml)) ".mise.toml" = some toml := by
  refine ⟨rfl, rfl, ?_, ?_, ?_, ?_⟩ <;>
    simp [setToolVersions, setMiseToml, writeFile, applyFsActions, applyFsAction,
      lookupFile, htv, ht]

/-- Witness for C7 at concrete non-empty bodies, over a filesystem that
already holds both files (showing the overwrite). -/
theorem config_writer_verbatim_witness :
    ("nodejs 20" : String) ≠ "" ∧ ("[tools]" : String) ≠ "" ∧
    (setToolVersions "" = [] ∧
     setMiseToml "" = [] ∧
     setToolVersions "nodejs 20" =
       [Effect.info ("Body:\n" ++ "nodejs 20"),
        Effect.writeFileA ".tool-versions" "nodejs 20"] ∧
     setMiseToml "[tools]" =
       [Effect.info ("Body:\n" ++ "[tools]"), Effect.writeFileA ".mise.toml" "[tools]"] ∧
     lookupFile
         (applyFsActions [(".tool-versions", "old"), (".mise.toml", "old")]
           (setToolVersions "nodejs 20")) ".tool-versions" = some "nodejs 20" ∧
     lookupFile
         (applyFsActions [(".tool-versions", "old"), (".mise.toml", "old")]
           (setMiseToml "[tools]")) ".mise.toml" = some "[tools]") :=
  ⟨by decide, by decide,
   config_writer_verbatim "nodejs 20" "[tools]"
     [(".tool-versions", "old"), (".mise.toml", "old")] (by decide) (by decide)⟩

/-- C6: in every cache-enabled run whose restore call returns (hit or
miss), the CACHE, PRIMARY_KEY and MISE_DIR state values are persisted,
and a CACHE_KEY state value is persisted if and only if the restore
reported a hit. -/
theorem cache_state_persisted (cachePath : String) (hashFiles : List String → String)
    (cacheKeyInput platform arch : String) (cacheSave : Bool) (r : Option String) :
    Effect.saveState "CACHE" (boolString cacheSave) ∈
      (cacheStep true cachePath hashFiles cacheKeyInput platform arch cacheSave
        (Except.ok r)).fst ∧
    Effect.saveState "PRIMARY_KEY"
        (mkPrimaryKey cacheKeyInput platform arch (hashFiles miseConfigGlobs)) ∈
      (cacheStep true cachePath hashFiles cacheKeyInput platform arch cacheSave
        (Except.ok r)).fst ∧
    Effect.saveState "MISE_DIR" cachePath ∈
      (cacheStep true cachePath hashFiles cacheKeyInput platform arch cacheSave
        (Except.ok r)).fst ∧
    ((∃ key, Effect.saveState "CACHE_KEY" key ∈
        (cacheStep true cachePath hashFiles cacheKeyInput platform arch cacheSave
          (Except.ok r)).fst) ↔ r.isSome = true) := by
  rcases r with _ | key
  · refine ⟨?_, ?_, ?_, ?_⟩ <;>
      simp [cacheStep, restoreMiseCache]
  · refine ⟨?_, ?_, ?_, ?_⟩ <;>
      simp [cacheStep, restoreMiseCache]

/-- C9: the CACHE, PRIMARY_KEY and MISE_DIR state values are persisted
before the restore is attempted (they are, in order, the first three
effects, followed immediately by the restore attempt), for every restore
outcome; in particular when the restore errors, the error propagates and
the three state values have already been persisted. -/
theorem cache_saves_precede_restore (cachePath : String) (hashFiles : List String → String)
    (cacheKeyInput platform arch : String) (cacheSave : Bool)
    (restoreResult : Except String (Option String)) (e : String) :
    (restoreMiseCache cachePath hashFiles cacheKeyInput platform arch cacheSave
        restoreResult).fst.take 4 =
      [Effect.saveState "CACHE" (boolString cacheSave),
       Effect.saveState "PRIMARY_KEY"
         (mkPrimaryKey cacheKeyInput platform arch (hashFiles miseConfigGlobs)),
       Effect.saveState "MISE_DIR" cachePath,
       Effect.restoreCache [cachePath]
         (mkPrimaryKey cacheKeyInput platform arch (hashFiles miseConfigGlobs))] ∧
    (restoreMiseCache cachePath hashFiles cacheKeyInput platform arch cacheSave
        (Except.error e)).snd = Except.error e ∧
    Effect.saveState "CACHE" (boolString cacheSave) ∈
      (restoreMiseCache cachePath hashFiles cacheKeyInput platform arch cacheSave
        (Except.error e)).fst ∧
    Effect.saveState "PRIMARY_KEY"
        (mkPrimaryKey cacheKeyInput platform arch (hashFiles miseConfigGlobs)) ∈
      (restoreMiseCache cachePath hashFiles cacheKeyInput platform arch cacheSave
        (Except.error e)).fst ∧
    Effect.saveState "MISE_DIR" cachePath ∈
      (restoreMiseCache cachePath hashFiles cacheKeyInput platform arch cacheSave
        (Except.error e)).fst := by
  refine ⟨?_, rfl, ?_, ?_, ?_⟩
  · rcases restoreResult with e2 | k
    · rfl
    · rcases k with _ | key <;> rfl
  all_goals simp [restoreMiseCache]

theorem lookupEnv_setEnv_self (k v : String) (s : ProcState) :
    lookupEnv (setEnv k v s) k = some v := by
  simp [lookupEnv, setEnv]

theorem lookupEnv_setEnv_other (k v k2 : String) (s : ProcState) (h : k2 ≠ k) :
    lookupEnv (setEnv k v s) k2 = lookupEnv s k2 := by
  unfold lookupEnv setEnv
  rw [List.find?_cons_of_neg]
  simp only [decide_eq_true_eq]
  exact fun hh => h hh.symm

theorem setEnvIfUnset_path (k v : String) (s : ProcState) :
    (setEnvIfUnset k v s).path = s.path := by
  unfold setEnvIfUnset setEnv
  split <;> rfl

theorem lookupEnv_setEnvIfUnset_other (k v k2 : String) (s : ProcState) (h : k2 ≠ k) :
    lookupEnv (setEnvIfUnset k v s) k2 = lookupEnv s k2 := by
  unfold setEnvIfUnset
  split
  · rfl
  · exact lookupEnv_setEnv_other k v k2 s h

theorem setEnvIfUnset_of_truthy (k v : String) (s : ProcState)
    (h : envTruthy (lookupEnv s k) = true) : setEnvIfUnset k v s = s := by
  unfold setEnvIfUnset
  rw [if_pos h]

theorem lookupEnv_setEnvIfUnset_falsy (k v : String) (s : ProcState)
    (h : envTruthy (lookupEnv s k) = false) :
    lookupEnv (setEnvIfUnset k v s) k = some v := by
  unfold setEnvIfUnset
  rw [if_neg (by simp [h])]
  exact lookupEnv_setEnv_self k v s

theorem setEnvIfUnset_keeps (kset vset k v : String) (s : ProcState)
    (hv : lookupEnv s k = some v) (hne : v ≠ "") :
    lookupEnv (setEnvIfUnset kset vset s) k = some v := by
  by_cases hk : k = kset
  · subst hk
    rw [setEnvIfUnset_of_truthy _ _ _ (by simp [envTruthy, hv, hne])]
    exact hv
  · rw [lookupEnv_setEnvIfUnset_other _ _ _ _ hk]
    exact hv

theorem preinstall_keeps_nonempty (cwd : String) (experimental : Bool) (s : ProcState)
    (k v : String) (hv : lookupEnv s k = some v) (hne : v ≠ "") :
    lookupEnv (setEnvVarsPreInstall cwd experimental s) k = some v := by
  unfold setEnvVarsPreInstall
  exact setEnvIfUnset_keeps _ _ _ _ _
    (setEnvIfUnset_keeps _ _ _ _ _ (setEnvIfUnset_keeps _ _ _ _ _ hv hne) hne) hne

theorem preinstall_other_keys (cwd : String) (experimental : Bool) (s : ProcState)
    (k : String) (h : k ∉ preInstallKeys) :
    lookupEnv (setEnvVarsPreInstall cwd experimental s) k = lookupEnv s k := by
  simp only [preInstallKeys, List.mem_cons, List.not_mem_nil, or_false, not_or] at h
  obtain ⟨h1, h2, h3⟩ := h
  unfold setEnvVarsPreInstall
  rw [lookupEnv_setEnvIfUnset_other _ _ _ _ h3, lookupEnv_setEnvIfUnset_other _ _ _ _ h2,
    lookupEnv_setEnvIfUnset_other _ _ _ _ h1]

theorem preinstall_path (cwd : String) (experimental : Bool) (s : ProcState) :
    (setEnvVarsPreInstall cwd experimental s).path = s.path := by
  unfold setEnvVarsPreInstall
  rw [setEnvIfUnset_path, setEnvIfUnset_path, setEnvIfUnset_path]

theorem preinstall_sets_when_falsy (cwd : String) (experimental : Bool) (s : ProcState)
    (k : String) (hk : k ∈ preInstallKeys) (hf : envTruthy (lookupEnv s k) = false) :
    lookupEnv (setEnvVarsPreInstall cwd experimental s) k =
      some (preInstallDefault cwd experimental k) := by
  simp only [preInstallKeys, List.mem_cons, List.not_mem_nil, or_false] at hk
  unfold setEnvVarsPreInstall
  rcases hk with h | h | h <;> subst h
  · rw [lookupEnv_setEnvIfUnset_other _ _ _ _ (by decide),
      lookupEnv_setEnvIfUnset_other _ _ _ _ (by decide),
      lookupEnv_setEnvIfUnset_falsy _ _ _ hf]
    rfl
  · rw [lookupEnv_setEnvIfUnset_other _ _ _ _ (by decide),
      lookupEnv_setEnvIfUnset_falsy]
    · rfl
    · rw [lookupEnv_setEnvIfUnset_other _ _ _ _ (by decide)]
      exact hf
  · rw [lookupEnv_setEnvIfUnset_falsy]
    · rfl
    · rw [lookupEnv_setEnvIfUnset_other _ _ _ _ (by decide),
        lookupEnv_setEnvIfUnset_other _ _ _ _ (by decide)]
      exact hf

/-- C5 counterexample: a pre-install variable that is present in the
environment (with the empty string as its value) is overwritten by the
pre-install stage, so the stage does not set variables only when absent,
and a pre-existing value can be overwritten. -/
theorem preinstall_overwrites_present_empty :
    lookupEnv (ProcState.mk [("MISE_YES", "")] []) "MISE_YES" = some "" ∧
    lookupEnv
        (setEnvVarsPreInstall "/work" false (ProcState.mk [("MISE_YES", "")] []))
        "MISE_YES" = some "1" := by
  decide

/-- C5 (amended): each pre-install variable is set only when it is absent
or present with an empty value; a pre-existing non-empty value is never
overwritten by this stage; all other environment variables, and PATH,
are left unchanged by it. -/
theorem preinstall_guarded_sets (cwd : String) (experimental : Bool) (s : ProcState)
    (k v : String) (hv : lookupEnv s k = some v) (hne : v ≠ "") :
    lookupEnv (setEnvVarsPreInstall cwd experimental s) k = some v ∧
    (∀ k2, k2 ∉ preInstallKeys →
      lookupEnv (setEnvVarsPreInstall cwd experimental s) k2 = lookupEnv s k2) ∧
    (setEnvVarsPreInstall cwd experimental s).path = s.path ∧
    (∀ k2, k2 ∈ preInstallKeys → envTruthy (lookupEnv s k2) = false →
      lookupEnv (setEnvVarsPreInstall cwd experimental s) k2 =
        some (preInstallDefault cwd experimental k2)) :=
  ⟨preinstall_keeps_nonempty cwd experimental s k v hv hne,
   fun k2 h2 => preinstall_other_keys cwd experimental s k2 h2,
   preinstall_path cwd experimental s,
   fun k2 hk2 hf2 => preinstall_sets_when_falsy cwd experimental s k2 hk2 hf2⟩

/-- Witness for the amended C5 at a concrete state holding a non-empty
pre-install variable. -/
theorem preinstall_guarded_sets_witness :
    lookupEnv (ProcState.mk [("MISE_YES", "keep")] ["/p"]) "MISE_YES" = some "keep" ∧
    ("keep" : String) ≠ "" ∧
    (lookupEnv
        (setEnvVarsPreInstall "/work" true (ProcState.mk [("MISE_YES", "keep")] ["/p"]))
        "MISE_YES" = some "keep" ∧
      (∀ k2, k2 ∉ preInstallKeys →
        lookupEnv
            (setEnvVarsPreInstall "/work" true (ProcState.mk [("MISE_YES", "keep")] ["/p"]))
            k2 =
          lookupEnv (ProcState.mk [("MISE_YES", "keep")] ["/p"]) k2) ∧
      (setEnvVarsPreInstall "/work" true (ProcState.mk [("MISE_YES", "keep")] ["/p"])).path =
        (ProcState.mk [("MISE_YES", "keep")] ["/p"]).path ∧
      (∀ k2, k2 ∈ preInstallKeys →
        envTruthy (lookupEnv (ProcState.mk [("MISE_YES", "keep")] ["/p"]) k2) = false →
        lookupEnv
            (setEnvVarsPreInstall "/work" true (ProcState.mk [("MISE_YES", "keep")] ["/p"]))
            k2 =
          some (preInstallDefault "/work" true k2))) :=
  ⟨by decide, by decide,
   preinstall_guarded_sets "/work" true (ProcState.mk [("MISE_YES", "keep")] ["/p"])
     "MISE_YES" "keep" (by decide) (by decide)⟩

/-- C10: a pre-install variable that is present but holds the empty
string is treated as unset and overwritten with the stage's default
value; only a variable present with a non-empty value is left
untouched. -/
theorem preinstall_empty_treated_unset (cwd : String) (experimental : Bool) (s : ProcState)
    (k : String) (hk : k ∈ preInstallKeys) (hv : lookupEnv s k = some "") :
    lookupEnv (setEnvVarsPreInstall cwd experimental s) k =
      some (preInstallDefault cwd experimental k) ∧
    ∀ k2 v2, lookupEnv s k2 = some v2 → v2 ≠ "" →
      lookupEnv (setEnvVarsPreInstall cwd experimental s) k2 = some v2 :=
  ⟨preinstall_sets_when_falsy cwd experimental s k hk (by simp [envTruthy, hv]),
   fun k2 v2 hv2 hne2 => preinstall_keeps_nonempty cwd experimental s k2 v2 hv2 hne2⟩

/-- Witness for C10: MISE_YES present with the empty value is overwritten
with the stage default "1". -/
theorem preinstall_empty_treated_unset_witness :
    ("MISE_YES" : String) ∈ preInstallKeys ∧
    lookupEnv (ProcState.mk [("MISE_YES", ""), ("OTHER", "x")] []) "MISE_YES" = some "" ∧
    (lookupEnv
        (setEnvVarsPreInstall "/work" false
          (ProcState.mk [("MISE_YES", ""), ("OTHER", "x")] []))
        "MISE_YES" = some (preInstallDefault "/work" false "MISE_YES") ∧
      ∀ k2 v2,
        lookupEnv (ProcState.mk [("MISE_YES", ""), ("OTHER", "x")] []) k2 = some v2 →
        v2 ≠ "" →
        lookupEnv
            (setEnvVarsPreInstall "/work" false
              (ProcState.mk [("MISE_YES", ""), ("OTHER", "x")] []))
            k2 = some v2) :=
  ⟨by decide, by decide,
   preinstall_empty_treated_unset "/work" false
     (ProcState.mk [("MISE_YES", ""), ("OTHER", "x")] []) "MISE_YES" (by decide)
     (by decide)⟩

theorem env_foldl_addPath (l : List String) (s : ProcState) :
    (l.foldl (fun t e => addPath e t) s).env = s.env := by
  induction l generalizing s with
  | nil => rfl
  | cons a l ih => simpa [addPath] using ih (addPath a s)

theorem path_foldl_addPath (l : List String) (s : ProcState) :
    (l.foldl (fun t e => addPath e t) s).path = s.path ++ l := by
  induction l generalizing s with
  | nil => simp
  | cons a l ih =>
    simp only [List.foldl_cons]
    rw [ih (addPath a s)]
    simp [addPath]

theorem lookupEnv_applyEnvEntry_ne (delim : String) (s : ProcState) (kv : String × String)
    (k : String) (h : kv.fst ≠ k) :
    lookupEnv (applyEnvEntry delim s kv) k = lookupEnv s k := by
  unfold applyEnvEntry
  split
  · unfold lookupEnv
    rw [env_foldl_addPath]
  · exact lookupEnv_setEnv_other kv.fst kv.snd k s (fun hh => h hh.symm)

theorem lookupEnv_applyEnvEntry_PATH (delim : String) (s : ProcState)
    (kv : String × String) :
    lookupEnv (applyEnvEntry delim s kv) "PATH" = lookupEnv s "PATH" := by
  unfold applyEnvEntry
  split
  · unfold lookupEnv
    rw [env_foldl_addPath]
  · next h => exact lookupEnv_setEnv_other _ _ _ _ (fun hh => h hh.symm)

theorem path_mono_applyEnvEntry (delim : String) (s : ProcState) (kv : String × String)
    (a : String) (ha : a ∈ s.path) : a ∈ (applyEnvEntry delim s kv).path := by
  unfold applyEnvEntry
  split
  · rw [path_foldl_addPath]
    exact List.mem_append_left _ ha
  · simpa [setEnv] using ha

theorem applyEnvVars_cons (delim : String) (a : String × String)
    (rest : List (String × String)) (s : ProcState) :
    applyEnvVars delim (a :: rest) s = applyEnvVars delim rest (applyEnvEntry delim s a) :=
  rfl

theorem path_mono_applyEnvVars (delim : String) (entries : List (String × String))
    (s : ProcState) (a : String) (ha : a ∈ s.path) :
    a ∈ (applyEnvVars delim entries s).path := by
  induction entries generalizing s with
  | nil => exact ha
  | cons kv rest ih =>
    simp only [applyEnvVars, List.foldl_cons]
    exact ih (applyEnvEntry delim s kv) (path_mono_applyEnvEntry delim s kv a ha)

theorem segments_mem_applyEnvVars (delim : String) (entries : List (String × String))
    (s : ProcState) (kv : String × String) (hkv : kv ∈ entries)
    (hPATH : kv.fst = "PATH") (seg : String) (hseg : seg ∈ kv.snd.splitOn delim) :
    seg ∈ (applyEnvVars delim entries s).path := by
  induction entries generalizing s with
  | nil => cases hkv
  | cons a rest ih =>
    rw [applyEnvVars_cons]
    rcases List.mem_cons.mp hkv with h | h
    · subst h
      apply path_mono_applyEnvVars
      unfold applyEnvEntry
      rw [if_pos hPATH, path_foldl_addPath]
      exact List.mem_append_right _ hseg
    · exact ih (applyEnvEntry delim s a) h

theorem lookupEnv_applyEnvVars_not_mem (delim : String) (entries : List (String × String))
    (s : ProcState) (k : String) (h : ∀ kv ∈ entries, kv.fst ≠ k) :
    lookupEnv (applyEnvVars delim entries s) k = lookupEnv s k := by
  induction entries generalizing s with
  | nil => rfl
  | cons a rest ih =>
    rw [applyEnvVars_cons,
      ih (applyEnvEntry delim s a) (fun kv hkv => h kv (List.mem_cons_of_mem a hkv))]
    exact lookupEnv_applyEnvEntry_ne delim s a k (h a (List.mem_cons_self a rest))

theorem lookupEnv_applyEnvVars_PATH (delim : String) (entries : List (String × String))
    (s : ProcState) :
    lookupEnv (applyEnvVars delim entries s) "PATH" = lookupEnv s "PATH" := by
  induction entries generalizing s with
  | nil => rfl
  | cons a rest ih =>
    rw [applyEnvVars_cons, ih (applyEnvEntry delim s a)]
    exact lookupEnv_applyEnvEntry_PATH delim s a

theorem lookupEnv_applyEnvVars_override (delim : String) (entries : List (String × String))
    (s : ProcState) (k v : String) (hnd : (entries.map Prod.fst).Nodup)
    (hmem : (k, v) ∈ entries) (hk : k ≠ "PATH") :
    lookupEnv (applyEnvVars delim entries s) k = some v := by
  induction entries generalizing s with
  | nil => cases hmem
  | cons a rest ih =>
    rw [List.map_cons, List.nodup_cons] at hnd
    obtain ⟨hnotin, hnd2⟩ := hnd
    rw [applyEnvVars_cons]
    rcases List.mem_cons.mp hmem with h | h
    · have ha1 : a.fst = k := (congrArg Prod.fst h).symm
      have ha2 : a.snd = v := (congrArg Prod.snd h).symm
      rw [lookupEnv_applyEnvVars_not_mem delim rest _ k ?_]
      · unfold applyEnvEntry
        rw [ha1, ha2, if_neg hk]
        exact lookupEnv_setEnv_self k v s
      · intro kv hkv hkk
        apply hnotin
        rw [ha1, ← hkk]
        exact List.mem_map_of_mem Prod.fst hkv
    · exact ih (applyEnvEntry delim s a) hnd2 h

/-- C1: on a successful environment dump, every key other than PATH is
exported directly into the process environment, overriding any existing
value; the PATH value is split on the platform path-list delimiter and
each segment becomes an individual PATH entry; the PATH environment
variable itself is never overwritten wholesale, and every PATH entry
contributed by earlier steps is preserved. -/
theorem env_exporter (delim : String)
    (parseJson : String → Option (List (String × String)))
    (out : ExecOutput) (s : ProcState) (entries : List (String × String))
    (h0 : out.exitCode = 0) (hp : parseJson out.stdout = some entries)
    (hnd : (entries.map Prod.fst).Nodup) :
    setEnvVars delim parseJson out s = Except.ok (applyEnvVars delim entries s) ∧
    (∀ a ∈ s.path, a ∈ (applyEnvVars delim entries s).path) ∧
    (∀ kv ∈ entries, kv.fst = "PATH" →
      ∀ seg ∈ kv.snd.splitOn delim, seg ∈ (applyEnvVars delim entries s).path) ∧
    lookupEnv (applyEnvVars delim entries s) "PATH" = lookupEnv s "PATH" ∧
    (∀ k v, (k, v) ∈ entries → k ≠ "PATH" →
      lookupEnv (applyEnvVars delim entries s) k = some v) := by
  refine ⟨?_, ?_, ?_, ?_, ?_⟩
  · unfold setEnvVars
    rw [if_pos h0, hp]
  · exact fun a ha => path_mono_applyEnvVars delim entries s a ha
  · exact fun kv hkv hP seg hseg =>
      segments_mem_applyEnvVars delim entries s kv hkv hP seg hseg
  · exact lookupEnv_applyEnvVars_PATH delim entries s
  · exact fun k v hm hk => lookupEnv_applyEnvVars_override delim entries s k v hnd hm hk

/-- Witness for C1 at the spec's example dump
`{"FOO":"bar","PATH":"/a:/b"}`, over a state that already has `FOO` set
and one earlier PATH entry. -/
theorem env_exporter_witness :
    (ExecOutput.mk 0 "dump" "").exitCode = 0 ∧
    (fun _ : String => some [("FOO", "bar"), ("PATH", "/a:/b")]) "dump" =
      some [("FOO", "bar"), ("PATH", "/a:/b")] ∧
    (([("FOO", "bar"), ("PATH", "/a:/b")] : List (String × String)).map Prod.fst).Nodup ∧
    (setEnvVars ":" (fun _ : String => some [("FOO", "bar"), ("PATH", "/a:/b")])
        (ExecOutput.mk 0 "dump" "") (ProcState.mk [("FOO", "old")] ["/old"]) =
      Except.ok
        (applyEnvVars ":" [("FOO", "bar"), ("PATH", "/a:/b")]
          (ProcState.mk [("FOO", "old")] ["/old"])) ∧
    (∀ a ∈ (ProcState.mk [("FOO", "old")] ["/old"]).path,
      a ∈ (applyEnvVars ":" [("FOO", "bar"), ("PATH", "/a:/b")]
            (ProcState.mk [("FOO", "old")] ["/old"])).path) ∧
    (∀ kv ∈ ([("FOO", "bar"), ("PATH", "/a:/b")] : List (String × String)),
      kv.fst = "PATH" →
      ∀ seg ∈ kv.snd.splitOn ":",
        seg ∈ (applyEnvVars ":" [("FOO", "bar"), ("PATH", "/a:/b")]
              (ProcState.mk [("FOO", "old")] ["/old"])).path) ∧
    lookupEnv
        (applyEnvVars ":" [("FOO", "bar"), ("PATH", "/a:/b")]
          (ProcState.mk [("FOO", "old")] ["/old"])) "PATH" =
      lookupEnv (ProcState.mk [("FOO", "old")] ["/old"]) "PATH" ∧
    (∀ k v, (k, v) ∈ ([("FOO", "bar"), ("PATH", "/a:/b")] : List (String × String)) →
      k ≠ "PATH" →
      lookupEnv
          (applyEnvVars ":" [("FOO", "bar"), ("PATH", "/a:/b")]
            (ProcState.mk [("FOO", "old")] ["/old"])) k = some v)) :=
  ⟨rfl, rfl, by decide,
   env_exporter ":" (fun _ : String => some [("FOO", "bar"), ("PATH", "/a:/b")])
     (ExecOutput.mk 0 "dump" "") (ProcState.mk [("FOO", "old")] ["/old"])
     [("FOO", "bar"), ("PATH", "/a:/b")] rfl rfl (by decide)⟩
